import Mathlib

/-!
# StreamPump: a push-to-pull stream adapter with backpressure

Shallow embedding of the `StreamPump` class of `src/src/test.js`
(lines 146-236), the adapter that bridges a push-based Node stream
(`data`/`error`/`end`/`close` events, `pause`/`resume`/`destroy`
capabilities) to a pull-based `ReadableStream` sink
(`enqueue`/`error`/`close`/`desiredSize`).

The adapter's mutable state is the four fields of the JS class; the sink
handle (`this.controller`) is modelled as a `Bool` (held or cleared), and
the `desiredSize` reading, which is sink-controlled external state, is
supplied with each `data` event as an oracle. Effects on the sink and on
the source are recorded as a trace of `Effect`s so that order, counts and
"no further calls" can be stated. The Node event wiring matters for the
claims: `data` is registered with `on`, while `error`/`end`/`close` are
registered with `once` (they deregister themselves when they fire), and
`cancel` removes all four listeners with `off`; the listener set is
therefore part of the state.
-/

/-- A chunk delivered by the source's `data` event: either a value the
adapter can convert to a binary buffer (`chunk instanceof Uint8Array ? chunk
: Buffer.from(chunk)` succeeds; we keep the resulting bytes, whose
`byteLength` is the list length), or a value on which `Buffer.from` throws. -/
inductive Chunk where
  | bytes (data : List Nat)
  | bad
deriving DecidableEq

/-- The capabilities and readable flag of the source stream that the adapter
probes at call time: `stream.pause`, `stream.resume`, `stream.destroy`
may be absent, and `stream.readable` is read by `resume`. -/
structure SourceCaps where
  hasPause : Bool
  hasResume : Bool
  hasDestroy : Bool
  readable : Bool
deriving DecidableEq

/-- The payload of a sink `error` call: either an error forwarded verbatim
from the source (identified by an opaque id), or the `Error` the adapter
constructs on chunk-conversion failure, carrying its message. -/
inductive SinkErr where
  | fromSource (id : Nat)
  | conversion (msg : String)
deriving DecidableEq

/-- A call the adapter makes on the sink handle (the `ReadableStream`
controller). -/
inductive SinkOp where
  | enqueue (bytes : List Nat)
  | error (e : SinkErr)
  | close
deriving DecidableEq

/-- A call the adapter makes on the source stream's optional methods. -/
inductive SrcOp where
  | pause
  | resume
  | destroy
deriving DecidableEq

/-- One sink-visible or source-visible effect of the adapter. -/
inductive Effect where
  | sink (op : SinkOp)
  | src (op : SrcOp)
deriving DecidableEq

/-- The adapter's state: the two counters of the JS class, whether the sink
handle (`this.controller`) is currently held, and which of the four
listeners the adapter has registered on the source are still attached.
The field name `accumalatedSize` keeps the source's spelling. -/
structure PumpState where
  highWaterMark : Nat
  accumalatedSize : Nat
  controller : Bool
  dataListener : Bool
  errorListener : Bool
  endListener : Bool
  closeListener : Bool
deriving DecidableEq

/-- The message of the `Error` built in `enqueue`'s catch block
(test.js lines 201-205). -/
def bufferErrorMessage : String :=
  "Could not create Buffer, chunk must be of type string or an instance of Buffer, ArrayBuffer, or Array or an Array-like Object"

/-- The message of the `ReferenceError` raised by the constructor's
fallback branch: test.js line 155 evaluates `new Stream.Readable()`, but
the module never binds `Stream` (line 7 imports only `Readable` from
`node:stream`), so that expression throws. -/
def streamNotDefinedMessage : String :=
  "ReferenceError: Stream is not defined"

namespace StreamPump

/-- `constructor` lines 153-155: `this.highWaterMark =
stream.readableHighWaterMark || new Stream.Readable().readableHighWaterMark`.
The left operand is the source's configured threshold (`none` models a
source without the property; `some 0` the falsy value 0). When it is
falsy the fallback operand is evaluated, and since `Stream` is unbound in
the module the constructor throws a `ReferenceError` instead of producing
the ecosystem default. -/
def constructorHighWaterMark (readableHighWaterMark : Option Nat) : Except String Nat :=
  match readableHighWaterMark with
  | some n => if n = 0 then .error streamNotDefinedMessage else .ok n
  | none => .error streamNotDefinedMessage

/-- State produced by the constructor body once `highWaterMark` has been
computed: `accumalatedSize` is 0, no sink handle yet, no listeners yet
(lines 156-160 only bind methods). -/
def mkState (hwm : Nat) : PumpState :=
  { highWaterMark := hwm, accumalatedSize := 0, controller := false,
    dataListener := false, errorListener := false,
    endListener := false, closeListener := false }

/-- The whole constructor, line 152-161: compute `highWaterMark` (possibly
throwing) and initialise the state. -/
def construct (readableHighWaterMark : Option Nat) : Except String PumpState :=
  (constructorHighWaterMark readableHighWaterMark).map mkState

/-- `size(chunk)` line 163-165: `chunk?.byteLength || 0`. A missing chunk
or one without a `byteLength` yields 0. -/
def size (chunk : Option Chunk) : Nat :=
  match chunk with
  | some (.bytes b) => b.length
  | _ => 0

/-- `start(controller)` lines 167-173: record the sink handle and subscribe
the four listeners (`on` for data, `once` for error/end/close). -/
def start (s : PumpState) : PumpState :=
  { s with controller := true, dataListener := true, errorListener := true,
           endListener := true, closeListener := true }

/-- The adapter state right after `start` was called on a freshly
constructed pump. -/
def startState (hwm : Nat) : PumpState :=
  start (mkState hwm)

/-- `pause()` lines 211-215: call `stream.pause()` only if the method
exists. -/
def pause (caps : SourceCaps) : List Effect :=
  if caps.hasPause then [.src .pause] else []

/-- `resume()` lines 217-221: call `stream.resume()` only if the stream is
readable and the method exists. -/
def resume (caps : SourceCaps) : List Effect :=
  if caps.readable && caps.hasResume then [.src .resume] else []

/-- `pull()` lines 175-177: just `this.resume()`. -/
def pull (caps : SourceCaps) : List Effect :=
  resume caps

/-- `cancel(reason)` lines 179-188: destroy the stream if it exposes
`destroy`, then detach all four listeners with `off`. The sink handle is
not touched. -/
def cancel (caps : SourceCaps) (s : PumpState) : PumpState × List Effect :=
  ({ s with dataListener := false, errorListener := false,
            endListener := false, closeListener := false },
   if caps.hasDestroy then [.src .destroy] else [])

/-- `close()` lines 223-228: if the sink handle is held, close the sink and
clear the handle; otherwise a no-op. -/
def close (s : PumpState) : PumpState × List Effect :=
  if s.controller then ({ s with controller := false }, [.sink .close])
  else (s, [])

/-- `error(error)` lines 230-235: if the sink handle is held, forward the
error to the sink and clear the handle; otherwise a no-op. -/
def error (s : PumpState) (e : Nat) : PumpState × List Effect :=
  if s.controller then ({ s with controller := false }, [.sink (.error (.fromSource e))])
  else (s, [])

/-- `enqueue(chunk)` lines 190-209: if the sink handle is held, convert the
chunk; on success enqueue the bytes and pause the source when
`(desiredSize || 0) - byteLength <= 0`; on conversion failure report the
type error to the sink and `cancel()`. `accumalatedSize` is not updated
anywhere in this method. -/
def enqueue (caps : SourceCaps) (s : PumpState) (chunk : Chunk)
    (desiredSize : Option Int) : PumpState × List Effect :=
  if s.controller then
    match chunk with
    | .bytes b =>
      let available : Int := desiredSize.getD 0 - (b.length : Int)
      (s, .sink (.enqueue b) :: (if available ≤ 0 then pause caps else []))
    | .bad =>
      let c := cancel caps s
      (c.1, .sink (.error (.conversion bufferErrorMessage)) :: c.2)
  else (s, [])

end StreamPump

/-- An event emitted by the source stream. A `data` event carries the chunk
together with the sink's `desiredSize` reading at that moment (`none`
models `null`/`undefined`). -/
inductive Event where
  | data (chunk : Chunk) (desiredSize : Option Int)
  | srcError (e : Nat)
  | srcEnd
  | srcClose
deriving DecidableEq

/-- Node's `EventEmitter` dispatch as wired by `start`: a handler runs only
while it is registered, and the `once` registrations for error/end/close
detach themselves when they fire. `end` and `close` invoke the same bound
`this.close`. -/
def handleEvent (caps : SourceCaps) (s : PumpState) : Event → PumpState × List Effect
  | .data chunk d =>
      if s.dataListener then StreamPump.enqueue caps s chunk d else (s, [])
  | .srcError e =>
      if s.errorListener then StreamPump.error { s with errorListener := false } e
      else (s, [])
  | .srcEnd =>
      if s.endListener then StreamPump.close { s with endListener := false }
      else (s, [])
  | .srcClose =>
      if s.closeListener then StreamPump.close { s with closeListener := false }
      else (s, [])

/-- A run of the adapter over a sequence of source events: final state and
the concatenated trace of effects. -/
def run (caps : SourceCaps) (s : PumpState) : List Event → PumpState × List Effect
  | [] => (s, [])
  | e :: es =>
      let r1 := handleEvent caps s e
      let r2 := run caps r1.1 es
      (r2.1, r1.2 ++ r2.2)

/-- The sink-visible part of a trace. -/
def sinkOps (acts : List Effect) : List SinkOp :=
  acts.filterMap fun a => match a with | .sink op => some op | .src _ => none

/-- Whether a sink call is a terminal notification (close or error). -/
def isTerminalOp : SinkOp → Bool
  | .close => true
  | .error _ => true
  | .enqueue _ => false

/-- Number of terminal notifications the sink received in a trace. -/
def terminalCount (acts : List Effect) : Nat :=
  ((sinkOps acts).filter isTerminalOp).length

/-- The byte chunks enqueued to the sink, in trace order. -/
def enqueuedChunks (acts : List Effect) : List (List Nat) :=
  acts.filterMap fun a => match a with | .sink (.enqueue b) => some b | _ => none

/-- Whether a source event is one of the terminal notifications
error/end/close. -/
def isSourceTerminal : Event → Bool
  | .srcError _ => true
  | .srcEnd => true
  | .srcClose => true
  | .data _ _ => false

/-- Whether an event is benign for conversion: every `data` chunk it
carries converts to a binary buffer. -/
def goodEvent : Event → Bool
  | .data .bad _ => false
  | _ => true

/-- A source with every optional capability present. -/
def capsAll : SourceCaps :=
  { hasPause := true, hasResume := true, hasDestroy := true, readable := true }

/-- A source lacking pause, resume and destroy. -/
def capsBare : SourceCaps :=
  { hasPause := false, hasResume := false, hasDestroy := false, readable := true }

/-! ## Trace accounting lemmas -/

lemma sinkOps_append (a b : List Effect) :
    sinkOps (a ++ b) = sinkOps a ++ sinkOps b := by
  simp [sinkOps, List.filterMap_append]

lemma sinkOps_cons_sink (op : SinkOp) (l : List Effect) :
    sinkOps (.sink op :: l) = op :: sinkOps l := rfl

lemma sinkOps_cons_src (op : SrcOp) (l : List Effect) :
    sinkOps (.src op :: l) = sinkOps l := rfl

lemma sinkOps_pauseIf (caps : SourceCaps) (c : Prop) [Decidable c] :
    sinkOps (if c then StreamPump.pause caps else []) = [] := by
  by_cases h : c <;> by_cases hp : caps.hasPause <;>
    simp [h, hp, StreamPump.pause, sinkOps]

lemma enqueuedChunks_append (a b : List Effect) :
    enqueuedChunks (a ++ b) = enqueuedChunks a ++ enqueuedChunks b := by
  simp [enqueuedChunks, List.filterMap_append]

lemma enqueuedChunks_cons_enqueue (b : List Nat) (l : List Effect) :
    enqueuedChunks (.sink (.enqueue b) :: l) = b :: enqueuedChunks l := rfl

lemma enqueuedChunks_pauseIf (caps : SourceCaps) (c : Prop) [Decidable c] :
    enqueuedChunks (if c then StreamPump.pause caps else []) = [] := by
  by_cases h : c <;> by_cases hp : caps.hasPause <;>
    simp [h, hp, StreamPump.pause, enqueuedChunks]

/-! ## State evolution lemmas -/

/-- Once the sink handle is cleared, a source event produces no effect at
all and the handle stays cleared: all four reactions first test
`this.controller`. -/
lemma handleEvent_dead (caps : SourceCaps) (s : PumpState) (e : Event)
    (h : s.controller = false) :
    (handleEvent caps s e).1.controller = false ∧ (handleEvent caps s e).2 = [] := by
  cases e with
  | data chunk d =>
    by_cases hd : s.dataListener
    · simp [handleEvent, hd, StreamPump.enqueue, h]
    · simp [handleEvent, hd, h]
  | srcError k =>
    by_cases he : s.errorListener
    · simp [handleEvent, he, StreamPump.error, h]
    · simp [handleEvent, he, h]
  | srcEnd =>
    by_cases he : s.endListener
    · simp [handleEvent, he, StreamPump.close, h]
    · simp [handleEvent, he, h]
  | srcClose =>
    by_cases he : s.closeListener
    · simp [handleEvent, he, StreamPump.close, h]
    · simp [handleEvent, he, h]

/-- Once the sink handle is cleared, a whole run produces an empty trace. -/
lemma run_dead (caps : SourceCaps) (evs : List Event) :
    ∀ s : PumpState, s.controller = false → (run caps s evs).2 = [] := by
  induction evs with
  | nil => intro s _; rfl
  | cons e es ih =>
    intro s h
    have hd := handleEvent_dead caps s e h
    simp [run, hd.2, ih _ hd.1]

/-- With all four listeners detached, a source event does not reach the
adapter at all. -/
lemma handleEvent_allOff (caps : SourceCaps) (s : PumpState) (e : Event)
    (h1 : s.dataListener = false) (h2 : s.errorListener = false)
    (h3 : s.endListener = false) (h4 : s.closeListener = false) :
    handleEvent caps s e = (s, []) := by
  cases e <;> simp [handleEvent, h1, h2, h3, h4]

/-- With all four listeners detached, a whole run produces an empty trace. -/
lemma run_allOff (caps : SourceCaps) (evs : List Event) (s : PumpState)
    (h1 : s.dataListener = false) (h2 : s.errorListener = false)
    (h3 : s.endListener = false) (h4 : s.closeListener = false) :
    (run caps s evs).2 = [] := by
  induction evs with
  | nil => rfl
  | cons e es ih =>
    simp [run, handleEvent_allOff caps s e h1 h2 h3 h4, ih]

/-- A convertible chunk processed while the handle is held leaves the state
untouched and emits the enqueue, then the backpressure pause when the
desired-size budget is exhausted. -/
lemma handleEvent_goodData (caps : SourceCaps) (s : PumpState) (b : List Nat)
    (d : Option Int) (hc : s.controller = true) (hdl : s.dataListener = true) :
    handleEvent caps s (.data (.bytes b) d) =
      (s, .sink (.enqueue b) ::
        (if d.getD 0 - (b.length : Int) ≤ 0 then StreamPump.pause caps else [])) := by
  simp [handleEvent, hdl, StreamPump.enqueue, hc]

/-- No adapter reaction writes `accumalatedSize`. -/
lemma handleEvent_accumalatedSize (caps : SourceCaps) (s : PumpState) (e : Event) :
    (handleEvent caps s e).1.accumalatedSize = s.accumalatedSize := by
  cases e with
  | data chunk d =>
    by_cases hdl : s.dataListener
    · cases chunk with
      | bytes b =>
        by_cases hc : s.controller <;>
          simp [handleEvent, hdl, StreamPump.enqueue, hc]
      | bad =>
        by_cases hc : s.controller <;>
          simp [handleEvent, hdl, StreamPump.enqueue, StreamPump.cancel, hc]
    · simp [handleEvent, hdl]
  | srcError k =>
    by_cases he : s.errorListener <;> by_cases hc : s.controller <;>
      simp [handleEvent, he, StreamPump.error, hc]
  | srcEnd =>
    by_cases he : s.endListener <;> by_cases hc : s.controller <;>
      simp [handleEvent, he, StreamPump.close, hc]
  | srcClose =>
    by_cases he : s.closeListener <;> by_cases hc : s.controller <;>
      simp [handleEvent, he, StreamPump.close, hc]

/-- `accumalatedSize` is invariant across any run. -/
lemma run_accumalatedSize (caps : SourceCaps) (evs : List Event) :
    ∀ s : PumpState, (run caps s evs).1.accumalatedSize = s.accumalatedSize := by
  induction evs with
  | nil => intro s; rfl
  | cons e es ih =>
    intro s
    simp only [run]
    rw [ih, handleEvent_accumalatedSize]

/-! ## Claim theorems -/

/-- C2: for any sequence of chunks emitted by the source while the sink
handle is held, every one of which converts to a binary buffer, the adapter
enqueues to the sink exactly the converted chunks in the same order, with no
gaps and no duplicates. -/
theorem C2_order_preservation (caps : SourceCaps) (hwm : Nat)
    (chunks : List (List Nat × Option Int)) :
    enqueuedChunks (run caps (StreamPump.startState hwm)
        (chunks.map fun p => Event.data (.bytes p.1) p.2)).2
      = chunks.map Prod.fst := by
  induction chunks with
  | nil => rfl
  | cons p ps ih =>
    have h := handleEvent_goodData caps (StreamPump.startState hwm) p.1 p.2 rfl rfl
    simp only [List.map_cons, run, h]
    rw [List.cons_append, enqueuedChunks_cons_enqueue, enqueuedChunks_append,
      enqueuedChunks_pauseIf, List.nil_append, ih]

/-- C3: while the sink handle is held and the source exposes `pause`,
processing a convertible data chunk pauses the source exactly when the
sink's desired size minus the chunk's byte length is non-positive, and a
subsequent `pull()` resumes the source provided it is readable and exposes
`resume`. -/
theorem C3_backpressure (caps : SourceCaps) (s : PumpState) (b : List Nat)
    (d : Option Int) (hp : caps.hasPause = true) (hc : s.controller = true)
    (hdl : s.dataListener = true) :
    ((Effect.src SrcOp.pause) ∈ (handleEvent caps s (.data (.bytes b) d)).2 ↔
        d.getD 0 - (b.length : Int) ≤ 0) ∧
    (caps.readable = true → caps.hasResume = true →
        StreamPump.pull caps = [Effect.src SrcOp.resume]) := by
  constructor
  · rw [handleEvent_goodData caps s b d hc hdl]
    by_cases hcond : d.getD 0 - (b.length : Int) ≤ 0 <;>
      simp [hcond, StreamPump.pause, hp]
  · intro hr hres
    simp [StreamPump.pull, StreamPump.resume, hr, hres]

theorem C3_backpressure_witness :
    ((Effect.src SrcOp.pause) ∈
        (handleEvent capsAll (StreamPump.startState 16)
          (.data (.bytes [0, 1]) (some 2))).2 ↔
      (some (2 : Int)).getD 0 - (([0, 1] : List Nat).length : Int) ≤ 0) ∧
    (capsAll.readable = true → capsAll.hasResume = true →
      StreamPump.pull capsAll = [Effect.src SrcOp.resume]) :=
  C3_backpressure capsAll (StreamPump.startState 16) [0, 1] (some 2) rfl rfl rfl

/-- C4, counterexample: from the started adapter, a conversion failure
delivers a terminal error notification to the sink, yet the sink handle is
still held afterwards — the conversion-failure path does not clear
`controller`, refuting "cleared by every transition to a terminal state
(including the conversion-failure error path)". -/
theorem C4_counterexample :
    terminalCount (handleEvent capsAll (StreamPump.startState 16)
        (.data Chunk.bad none)).2 = 1 ∧
    (handleEvent capsAll (StreamPump.startState 16)
        (.data Chunk.bad none)).1.controller = true :=
  ⟨rfl, rfl⟩

/-- C4, amended: the sink handle is set by `start`; it is cleared by the
source-error and end/close terminal transitions; while it is null every
source event is a no-op producing no sink (indeed no) effects; but on the
conversion-failure path the handle is NOT cleared — the resulting state
keeps `controller` set and instead has all four listeners removed. -/
theorem C4_sink_handle (caps : SourceCaps) (s t : PumpState) (e : Event)
    (k : Nat) (d : Option Int) (hc : s.controller = true)
    (ht : t.controller = false) :
    (StreamPump.start t).controller = true ∧
    (StreamPump.error s k).1.controller = false ∧
    (StreamPump.close s).1.controller = false ∧
    (handleEvent caps t e).2 = [] ∧
    (StreamPump.enqueue caps s Chunk.bad d).1.controller = true ∧
    (StreamPump.enqueue caps s Chunk.bad d).1.dataListener = false ∧
    (StreamPump.enqueue caps s Chunk.bad d).1.errorListener = false ∧
    (StreamPump.enqueue caps s Chunk.bad d).1.endListener = false ∧
    (StreamPump.enqueue caps s Chunk.bad d).1.closeListener = false := by
  refine ⟨rfl, ?_, ?_, (handleEvent_dead caps t e ht).2, ?_, ?_, ?_, ?_, ?_⟩
  · simp [StreamPump.error, hc]
  · simp [StreamPump.close, hc]
  all_goals simp [StreamPump.enqueue, hc, StreamPump.cancel]

theorem C4_sink_handle_witness :
    (StreamPump.start (StreamPump.mkState 16)).controller = true ∧
    (StreamPump.error (StreamPump.startState 16) 5).1.controller = false ∧
    (StreamPump.close (StreamPump.startState 16)).1.controller = false ∧
    (handleEvent capsAll (StreamPump.mkState 16) Event.srcEnd).2 = [] ∧
    (StreamPump.enqueue capsAll (StreamPump.startState 16) Chunk.bad none).1.controller = true ∧
    (StreamPump.enqueue capsAll (StreamPump.startState 16) Chunk.bad none).1.dataListener = false ∧
    (StreamPump.enqueue capsAll (StreamPump.startState 16) Chunk.bad none).1.errorListener = false ∧
    (StreamPump.enqueue capsAll (StreamPump.startState 16) Chunk.bad none).1.endListener = false ∧
    (StreamPump.enqueue capsAll (StreamPump.startState 16) Chunk.bad none).1.closeListener = false :=
  C4_sink_handle capsAll (StreamPump.startState 16) (StreamPump.mkState 16)
    Event.srcEnd 5 none rfl rfl

/-- C5: while the sink handle is held, a chunk that cannot be converted
produces exactly one sink call — an error carrying the descriptive message —
followed only by the best-effort destroy of `cancel()`; all four of the
adapter's listeners are removed from the source, and no subsequent source
event (data included) produces any effect. -/
theorem C5_conversion_failure (caps : SourceCaps) (s : PumpState)
    (d : Option Int) (evs : List Event)
    (hc : s.controller = true) (hdl : s.dataListener = true) :
    (handleEvent caps s (.data Chunk.bad d)).2 =
        Effect.sink (SinkOp.error (.conversion bufferErrorMessage)) ::
          (if caps.hasDestroy then [Effect.src SrcOp.destroy] else []) ∧
    (handleEvent caps s (.data Chunk.bad d)).1.dataListener = false ∧
    (handleEvent caps s (.data Chunk.bad d)).1.errorListener = false ∧
    (handleEvent caps s (.data Chunk.bad d)).1.endListener = false ∧
    (handleEvent caps s (.data Chunk.bad d)).1.closeListener = false ∧
    (run caps (handleEvent caps s (.data Chunk.bad d)).1 evs).2 = [] := by
  have h : handleEvent caps s (.data Chunk.bad d) =
      ({ s with dataListener := false, errorListener := false,
                endListener := false, closeListener := false },
       Effect.sink (SinkOp.error (.conversion bufferErrorMessage)) ::
         (if caps.hasDestroy then [Effect.src SrcOp.destroy] else [])) := by
    simp [handleEvent, hdl, StreamPump.enqueue, hc, StreamPump.cancel]
  rw [h]
  exact ⟨rfl, rfl, rfl, rfl, rfl, run_allOff caps evs _ rfl rfl rfl rfl⟩

theorem C5_conversion_failure_witness :
    (handleEvent capsAll (StreamPump.startState 16) (.data Chunk.bad none)).2 =
        Effect.sink (SinkOp.error (.conversion bufferErrorMessage)) ::
          (if capsAll.hasDestroy then [Effect.src SrcOp.destroy] else []) ∧
    (handleEvent capsAll (StreamPump.startState 16) (.data Chunk.bad none)).1.dataListener = false ∧
    (handleEvent capsAll (StreamPump.startState 16) (.data Chunk.bad none)).1.errorListener = false ∧
    (handleEvent capsAll (StreamPump.startState 16) (.data Chunk.bad none)).1.endListener = false ∧
    (handleEvent capsAll (StreamPump.startState 16) (.data Chunk.bad none)).1.closeListener = false ∧
    (run capsAll (handleEvent capsAll (StreamPump.startState 16) (.data Chunk.bad none)).1
        [Event.data (Chunk.bytes [1]) (some 5), Event.srcEnd]).2 = [] :=
  C5_conversion_failure capsAll (StreamPump.startState 16) none
    [Event.data (Chunk.bytes [1]) (some 5), Event.srcEnd] rfl rfl

/-- C6: the constructor takes the source's configured readable
high-water-mark when it is present (and non-zero, JS falsiness); but for a
source without one the fallback branch does not yield the ecosystem
default: it evaluates `new Stream.Readable()` with `Stream` unbound in the
module, throwing a `ReferenceError`. Evaluating the embedded constructor at
such a source exhibits the failure. -/
theorem C6_highWaterMark_fallback_bug :
    StreamPump.construct (some 16384) = Except.ok (StreamPump.mkState 16384) ∧
    StreamPump.construct none = Except.error streamNotDefinedMessage ∧
    StreamPump.construct (some 0) = Except.error streamNotDefinedMessage :=
  ⟨rfl, rfl, rfl⟩

/-- C7: `cancel()` never calls the sink, in any adapter state; a second
`cancel()` changes nothing further and again makes no sink call; and
`cancel()` after a natural close also makes no sink call. The embedded
operation is total, so no exception arises. -/
theorem C7_cancel_idempotent (caps : SourceCaps) (s : PumpState) :
    sinkOps (StreamPump.cancel caps s).2 = [] ∧
    (StreamPump.cancel caps (StreamPump.cancel caps s).1).1 =
      (StreamPump.cancel caps s).1 ∧
    sinkOps (StreamPump.cancel caps (StreamPump.cancel caps s).1).2 = [] ∧
    sinkOps (StreamPump.cancel caps (StreamPump.close s).1).2 = [] := by
  refine ⟨?_, rfl, ?_, ?_⟩ <;>
    by_cases hd : caps.hasDestroy <;> simp [StreamPump.cancel, hd, sinkOps]

/-- C8, counterexample: from the started adapter, a successful enqueue of a
one-byte chunk leaves `accumalatedSize` at 0, not at the running total 1:
`enqueue` never updates the counter. -/
theorem C8_counterexample :
    enqueuedChunks (handleEvent capsAll (StreamPump.startState 16)
        (.data (.bytes [7]) (some 10))).2 = [[7]] ∧
    (handleEvent capsAll (StreamPump.startState 16)
        (.data (.bytes [7]) (some 10))).1.accumalatedSize = 0 ∧
    (handleEvent capsAll (StreamPump.startState 16)
        (.data (.bytes [7]) (some 10))).1.accumalatedSize ≠
      ([7] : List Nat).length := by
  refine ⟨rfl, rfl, ?_⟩
  decide

/-- C8, amended: `accumalatedSize` is initialised to 0 by the constructor
and never modified by any adapter operation; after any run it is still 0
rather than the running total of the byte lengths of the enqueued chunks. -/
theorem C8_accumalatedSize_constant (caps : SourceCaps) (hwm : Nat)
    (evs : List Event) :
    (StreamPump.mkState hwm).accumalatedSize = 0 ∧
    (run caps (StreamPump.startState hwm) evs).1.accumalatedSize = 0 := by
  refine ⟨rfl, ?_⟩
  rw [run_accumalatedSize]
  rfl

/-- C9: a source lacking `pause`, `resume`, or `destroy` makes the
corresponding adapter operation (pause, resume via `pull`, the destroy part
of `cancel`) a no-op: no call is issued to the source, and the embedded
operations are total, so no exception arises. -/
theorem C9_missing_capabilities (caps : SourceCaps) (s : PumpState) :
    (caps.hasPause = false → StreamPump.pause caps = []) ∧
    (caps.hasResume = false → StreamPump.pull caps = []) ∧
    (caps.hasDestroy = false → (StreamPump.cancel caps s).2 = []) := by
  refine ⟨fun h => ?_, fun h => ?_, fun h => ?_⟩
  · simp [StreamPump.pause, h]
  · simp [StreamPump.pull, StreamPump.resume, h]
  · simp [StreamPump.cancel, h]

theorem C9_missing_capabilities_witness :
    StreamPump.pause capsBare = [] ∧ StreamPump.pull capsBare = [] ∧
    (StreamPump.cancel capsBare (StreamPump.startState 16)).2 = [] :=
  ⟨(C9_missing_capabilities capsBare (StreamPump.startState 16)).1 rfl,
   (C9_missing_capabilities capsBare (StreamPump.startState 16)).2.1 rfl,
   (C9_missing_capabilities capsBare (StreamPump.startState 16)).2.2 rfl⟩

/-- C10: when the sink's `desiredSize` reads as null/undefined while the
sink handle is held, `enqueue` treats the desired size as 0: the chunk is
still forwarded to the sink, and the source (exposing `pause`) is paused
immediately after the enqueue, whatever the chunk's byte length. -/
theorem C10_null_desired_size (caps : SourceCaps) (s : PumpState)
    (b : List Nat) (hp : caps.hasPause = true) (hc : s.controller = true)
    (hdl : s.dataListener = true) :
    (handleEvent caps s (.data (.bytes b) none)).2 =
      [Effect.sink (SinkOp.enqueue b), Effect.src SrcOp.pause] := by
  rw [handleEvent_goodData caps s b none hc hdl]
  have hcond : (none : Option Int).getD 0 - (b.length : Int) ≤ 0 := by
    show (0 : Int) - (b.length : Int) ≤ 0
    omega
  simp [hcond, StreamPump.pause, hp]

theorem C10_null_desired_size_witness :
    (handleEvent capsAll (StreamPump.startState 16)
        (.data (.bytes [3, 4]) none)).2 =
      [Effect.sink (SinkOp.enqueue [3, 4]), Effect.src SrcOp.pause] :=
  C10_null_desired_size capsAll (StreamPump.startState 16) [3, 4] rfl rfl rfl

/-- C1: across any run from the started adapter in which every data chunk
converts to a binary buffer and the source fires at least one of
error/end/close, the sink receives exactly one terminal notification
(close or error) and it is the last sink-visible event: the sink-call trace
is a terminal-free prefix followed by the single terminal, every later
source event being a no-op because the sink handle has been cleared. -/
theorem C1_single_terminal_event (caps : SourceCaps) (hwm : Nat)
    (events : List Event)
    (hgood : ∀ e ∈ events, goodEvent e = true)
    (hterm : ∃ e ∈ events, isSourceTerminal e = true) :
    ∃ pre op, sinkOps (run caps (StreamPump.startState hwm) events).2 =
        pre ++ [op] ∧ isTerminalOp op = true ∧
      ∀ q ∈ pre, isTerminalOp q = false := by
  induction events with
  | nil => simp at hterm
  | cons e es ih =>
    cases e with
    | srcError k =>
      refine ⟨[], SinkOp.error (.fromSource k), ?_, rfl, by simp⟩
      have htr : (handleEvent caps (StreamPump.startState hwm)
          (Event.srcError k)).2 = [Effect.sink (SinkOp.error (.fromSource k))] := rfl
      have hctl : (handleEvent caps (StreamPump.startState hwm)
          (Event.srcError k)).1.controller = false := rfl
      simp only [run]
      rw [htr, run_dead caps es _ hctl]
      rfl
    | srcEnd =>
      refine ⟨[], SinkOp.close, ?_, rfl, by simp⟩
      have htr : (handleEvent caps (StreamPump.startState hwm)
          Event.srcEnd).2 = [Effect.sink SinkOp.close] := rfl
      have hctl : (handleEvent caps (StreamPump.startState hwm)
          Event.srcEnd).1.controller = false := rfl
      simp only [run]
      rw [htr, run_dead caps es _ hctl]
      rfl
    | srcClose =>
      refine ⟨[], SinkOp.close, ?_, rfl, by simp⟩
      have htr : (handleEvent caps (StreamPump.startState hwm)
          Event.srcClose).2 = [Effect.sink SinkOp.close] := rfl
      have hctl : (handleEvent caps (StreamPump.startState hwm)
          Event.srcClose).1.controller = false := rfl
      simp only [run]
      rw [htr, run_dead caps es _ hctl]
      rfl
    | data chunk dsz =>
      cases chunk with
      | bad =>
        have hbad := hgood _ (List.mem_cons_self _ _)
        simp [goodEvent] at hbad
      | bytes b =>
        obtain ⟨w, hw, hwt⟩ := hterm
        rcases List.mem_cons.mp hw with hwe | hwes
        · rw [hwe] at hwt
          simp [isSourceTerminal] at hwt
        · have hgood2 : ∀ x ∈ es, goodEvent x = true :=
            fun x hx => hgood x (List.mem_cons_of_mem _ hx)
          obtain ⟨pre, op, heq, hop, hpre⟩ := ih hgood2 ⟨w, hwes, hwt⟩
          refine ⟨SinkOp.enqueue b :: pre, op, ?_, hop, ?_⟩
          · have hstep := handleEvent_goodData caps (StreamPump.startState hwm)
              b dsz rfl rfl
            simp only [run, hstep]
            rw [List.cons_append, sinkOps_cons_sink, sinkOps_append,
              sinkOps_pauseIf, List.nil_append, heq, List.cons_append]
          · intro q hq
            rcases List.mem_cons.mp hq with h | h
            · rw [h]; rfl
            · exact hpre q h

theorem C1_single_terminal_event_witness :
    ∃ pre op, sinkOps (run capsAll (StreamPump.startState 16)
        [Event.data (Chunk.bytes [1]) (some 5), Event.srcEnd, Event.srcClose,
         Event.srcError 3]).2 = pre ++ [op] ∧ isTerminalOp op = true ∧
      ∀ q ∈ pre, isTerminalOp q = false :=
  C1_single_terminal_event capsAll 16
    [Event.data (Chunk.bytes [1]) (some 5), Event.srcEnd, Event.srcClose,
     Event.srcError 3] (by decide) (by decide)
